import Mathlib

/-!
Shallow embedding of the Nexus IA conversational backend (src/main.py,
src/database.py) and verification of its specification claims.

Python strings are modelled as `List Char`; the Python string operations
used by the source (`in`, `strip`, `capitalize`, `lower`, `replace`,
`split(sep, 1)`, `split(sep)[-1]`, `startswith`) are defined below with
Python's semantics.  The external LLM provider and the host platform are
inputs (an oracle function, an event list, a boolean); exceptions raised
by the provider are modelled as an explicit `err` event.
-/

namespace Nexus

/-- Python strings, as their character lists. -/
abbrev Str := List Char

/-- Coerce a Lean string literal to the `Str` model. -/
def str (s : String) : Str := s.data

/-- Python `needle in hay` (substring containment), recursing over the
haystack: the needle is contained iff it is a prefix of some suffix. -/
def containsSub (needle : Str) : Str → Bool
  | [] => needle.isEmpty
  | c :: cs => needle.isPrefixOf (c :: cs) || containsSub needle cs

/-- Python `s.strip()`: drop whitespace from both ends. -/
def strip (s : Str) : Str :=
  ((s.dropWhile Char.isWhitespace).reverse.dropWhile Char.isWhitespace).reverse

/-- Python `s.capitalize()`: first character uppercased, the rest
lowercased (ASCII case mapping). -/
def capitalize : Str → Str
  | [] => []
  | c :: cs => Char.toUpper c :: cs.map Char.toLower

/-- Python `s.lower()` (ASCII case mapping). -/
def lowerStr (s : Str) : Str := s.map Char.toLower

/-- Split at the first occurrence of `sep`: `some (before, after)` when
`sep` occurs, `none` otherwise.  Mirrors Python `s.split(sep, 1)`, whose
result unpacks into two parts exactly when the separator occurs. -/
def splitFirst (sep : Str) : Str → Option (Str × Str)
  | [] => if sep.isEmpty then some ([], []) else none
  | c :: cs =>
    if sep.isPrefixOf (c :: cs) then some ([], (c :: cs).drop sep.length)
    else (splitFirst sep cs).map (fun p => (c :: p.1, p.2))

/-- Python `s.replace(old, new, 1)`: replace the first occurrence only. -/
def replaceFirst (old new s : Str) : Str :=
  match splitFirst old s with
  | none => s
  | some (l, r) => l ++ new ++ r

/-- Recursion worker for `replaceAll`.  The fuel only makes the
recursion structural: each step consumes one fuel and at least one
character, so with starting fuel `s.length` the zero-fuel arm is never
reached on a non-empty list. -/
def replaceAllAux (old new : Str) : Nat → Str → Str
  | _, [] => []
  | 0, s => s
  | fuel + 1, c :: cs =>
    if old ≠ [] ∧ old.isPrefixOf (c :: cs) then
      new ++ replaceAllAux old new fuel (cs.drop (old.length - 1))
    else
      c :: replaceAllAux old new fuel cs

/-- Python `s.replace(old, new)` with a non-empty `old`: replace every
(non-overlapping, left-to-right) occurrence. -/
def replaceAll (old new s : Str) : Str := replaceAllAux old new s.length s

/-- Python `s.split(sep)[-1]` for a non-empty `sep`: the text after the
last occurrence of `sep`, or all of `s` when `sep` does not occur.
Computed as the text before the first occurrence in the reversal. -/
def afterLast (sep s : Str) : Str :=
  match splitFirst sep.reverse s.reverse with
  | none => s
  | some (l, _) => l.reverse

/-- Session memory, from `_cargar_memoria`'s blank-memory shape:
`{"nombre": "", "nombre_usuario": "", "datos_aprendidos": {}}`.  The
Python dict `datos_aprendidos` is an insertion-ordered association list. -/
structure Memoria where
  nombre : Str
  nombre_usuario : Str
  datos_aprendidos : List (Str × Str)
deriving DecidableEq

/-- The blank memory created when no persisted record exists. -/
def blankMemoria : Memoria := { nombre := [], nombre_usuario := [], datos_aprendidos := [] }

/-- Python `d[k] = v` on an insertion-ordered dict: overwrite in place if
the key exists, else append. -/
def setFact : List (Str × Str) → Str → Str → List (Str × Str)
  | [], k, v => [(k, v)]
  | (k', v') :: rest, k, v =>
    if k' = k then (k, v) :: rest else (k', v') :: setFact rest k v

/-- Python `d.get(k)`: the stored value, or `none` when absent. -/
def getFact : List (Str × Str) → Str → Option Str
  | [], _ => none
  | (k', v') :: rest, k => if k' = k then some v' else getFact rest k

/-- The `action` field of a reply dict: `{"type": "none"}`,
`{"type": "open_url", "payload": {"url": ...}}` or `{"type": "exit"}`. -/
inductive Accion where
  | none
  | open_url (url : Str)
  | exit
deriving DecidableEq

/-- The observable outcome of one `pensar_y_responder` call (or of one
handler): the memory afterwards, the reply dict's `speech` and `action`,
whether `_guardar_memoria` was invoked, and which executable (if any)
`subprocess.Popen` was given. -/
structure Resultado where
  memoria : Memoria
  speech : Str
  accion : Accion
  saved : Bool
  spawned : Option Str
deriving DecidableEq

/-- The connector `" es "` of `_handle_remember_fact`. -/
def esSep : Str := str " es "

/-- The connector `" son "` of `_handle_remember_fact`. -/
def sonSep : Str := str " son "

/-- `Nexus._handle_set_ia_name`: the whole command, stripped and
capitalized, becomes the assistant's name; memory is persisted. -/
def handle_set_ia_name (m : Memoria) (comando : Str) : Resultado :=
  let nombre_elegido := capitalize (strip comando)
  { memoria := { m with nombre := nombre_elegido },
    speech := str "¡Entendido! A partir de ahora mi nombre es " ++ nombre_elegido
      ++ str ". ¿En qué puedo ayudarte?",
    accion := .none, saved := true, spawned := none }

/-- `Nexus._handle_set_user_name`: `comando.split("mi nombre es")[-1]`,
stripped and capitalized, becomes the user's name; memory is persisted. -/
def handle_set_user_name (m : Memoria) (comando : Str) : Resultado :=
  let nombre_nuevo := capitalize (strip (afterLast (str "mi nombre es") comando))
  { memoria := { m with nombre_usuario := nombre_nuevo },
    speech := str "¡Hola, " ++ nombre_nuevo ++ str "! Un placer conocerte. He guardado tu nombre.",
    accion := .none, saved := true, spawned := none }

/-- `Nexus._handle_get_user_name`: reply with the stored user name, or a
prompt when it is empty (Python truthiness on the string). -/
def handle_get_user_name (m : Memoria) (_comando : Str) : Resultado :=
  let speech :=
    if m.nombre_usuario ≠ [] then
      str "Te llamas " ++ m.nombre_usuario ++ str ", ¿verdad?"
    else
      str "Aún no me has dicho tu nombre. Puedes decir 'mi nombre es...' para que lo recuerde."
  { memoria := m, speech := speech, accion := .none, saved := false, spawned := none }

/-- `Nexus._handle_remember_fact`: strip the trigger `"recuerda que"`
(first occurrence), choose `" es "` when it occurs in the remainder and
`" son "` otherwise, and split once at that separator; on success store
trimmed key/value and persist, on failure (`ValueError` from unpacking a
one-element split) reply with the format hint and change nothing. -/
def handle_remember_fact (m : Memoria) (comando : Str) : Resultado :=
  let dato_a_recordar := strip (replaceFirst (str "recuerda que") [] comando)
  let separador := if containsSub esSep dato_a_recordar then esSep else sonSep
  match splitFirst separador dato_a_recordar with
  | some (clave, valor) =>
    { memoria := { m with datos_aprendidos := setFact m.datos_aprendidos (strip clave) (strip valor) },
      speech := str "Entendido. He guardado que '" ++ strip clave ++ str "' es '"
        ++ strip valor ++ str "'.",
      accion := .none, saved := true, spawned := none }
  | none =>
    { memoria := m,
      speech := str "Para que recuerde algo, por favor usa el formato: 'recuerda que [dato] es [valor]'.",
      accion := .none, saved := false, spawned := none }

/-- `Nexus._handle_recall_fact`: strip both trigger phrases (all
occurrences) to derive the key; on a hit with a non-empty stored value
(Python truthiness) reply from memory, otherwise ask the external brain
(`gemini`) with the key only and prefix its answer. -/
def handle_recall_fact (gemini : Str → Str) (m : Memoria) (comando : Str) : Resultado :=
  let clave_a_buscar :=
    strip (replaceAll (str "recuérdame") [] (replaceAll (str "qué sabes sobre") [] comando))
  let miss : Resultado :=
    { memoria := m,
      speech := str "No tengo información específica sobre '" ++ clave_a_buscar
        ++ str "'. Le preguntaré a mi cerebro externo. Según mi información, "
        ++ gemini clave_a_buscar,
      accion := .none, saved := false, spawned := none }
  match getFact m.datos_aprendidos clave_a_buscar with
  | some v =>
    if v ≠ [] then
      { memoria := m, speech := str "Recuerdo que " ++ clave_a_buscar ++ str " es " ++ v ++ str ".",
        accion := .none, saved := false, spawned := none }
    else miss
  | none => miss

/-- `Nexus._handle_open_website`: strip the trigger words (all
occurrences of `"abre"` then `"inicia"`), prefix `https://` unless the
remainder starts with `http`, and return an `open_url` action. -/
def handle_open_website (m : Memoria) (comando : Str) : Resultado :=
  let sitio0 := strip (replaceAll (str "inicia") [] (replaceAll (str "abre") [] comando))
  let sitio_web := if (str "http").isPrefixOf sitio0 then sitio0 else str "https://" ++ sitio0
  { memoria := m, speech := str "Claro, abriendo " ++ sitio_web ++ str ".",
    accion := .open_url sitio_web, saved := false, spawned := none }

/-- `Nexus._handle_google_search`: strip the trigger phrase, encode
spaces as `+`, and return an `open_url` action on the search URL. -/
def handle_google_search (m : Memoria) (comando : Str) : Resultado :=
  let termino_busqueda := strip (replaceAll (str "busca en google") [] comando)
  let url_busqueda :=
    str "https://www.google.com/search?q=" ++ replaceAll (str " ") (str "+") termino_busqueda
  { memoria := m, speech := str "Buscando '" ++ termino_busqueda ++ str "' en Google.",
    accion := .open_url url_busqueda, saved := false, spawned := none }

/-- The fixed app-name map of `_handle_execute_app`, in definition
order. -/
def mapa_apps : List (Str × Str) :=
  [(str "calculadora", str "calc.exe"),
   (str "bloc de notas", str "notepad.exe"),
   (str "explorador de archivos", str "explorer.exe")]

/-- `Nexus._handle_execute_app`: lowercase the stripped remainder after
removing `"ejecuta"`; refuse (action `none`, nothing spawned) unless
`sys.platform` starts with `win`; otherwise spawn the first mapped
executable whose app name is contained in the remainder, or reply
"don't know how". -/
def handle_execute_app (isWindows : Bool) (m : Memoria) (comando : Str) : Resultado :=
  let aplicacion := lowerStr (strip (replaceAll (str "ejecuta") [] comando))
  if ¬ isWindows then
    { memoria := m,
      speech := str "Lo siento, la función de ejecutar aplicaciones como '" ++ aplicacion
        ++ str "' solo está disponible cuando opero en un sistema Windows.",
      accion := .none, saved := false, spawned := none }
  else
    match mapa_apps.find? (fun p => containsSub p.1 aplicacion) with
    | some (app_name, executable) =>
      { memoria := m, speech := str "Ejecutando " ++ app_name ++ str ".",
        accion := .none, saved := false, spawned := some executable }
    | none =>
      { memoria := m,
        speech := str "No sé cómo ejecutar '" ++ aplicacion
          ++ str "'. Puedes enseñarme agregándolo al código.",
        accion := .none, saved := false, spawned := none }

/-- `Nexus._handle_exit`: farewell, personalized when a user name is
stored (the memory key is always present, so Python's `get` default
`"tú"` is only compared against the stored value). -/
def handle_exit (m : Memoria) (_comando : Str) : Resultado :=
  let speech :=
    if m.nombre_usuario = str "tú" then str "¡Hasta pronto!"
    else str "¡Hasta pronto, " ++ m.nombre_usuario ++ str "!"
  { memoria := m, speech := speech, accion := .exit, saved := false, spawned := none }

/-- Tags for the bound methods stored in `self.command_dispatcher`, plus
the special-cased `_handle_execute_app`. -/
inductive HandlerTag where
  | set_user_name
  | get_user_name
  | remember_fact
  | recall_fact
  | open_website
  | google_search
  | exit_cmd
  | execute_app
deriving DecidableEq

/-- The `command_dispatcher` table of `_setup_logging`, in definition
(= Python dict insertion) order. -/
def command_dispatcher : List (HandlerTag × List Str) :=
  [(.set_user_name, [str "mi nombre es"]),
   (.get_user_name, [str "¿cómo me llamo?", str "cuál es mi nombre"]),
   (.remember_fact, [str "recuerda que"]),
   (.recall_fact, [str "qué sabes sobre", str "recuérdame"]),
   (.open_website, [str "abre", str "inicia"]),
   (.google_search, [str "busca en google"]),
   (.exit_cmd, [str "adiós", str "hasta luego", str "apágate"])]

/-- Run the handler a tag names.  `gemini` is the blocking LLM oracle
(the reply text `pensar_con_gemini` would return for a query);
`isWindows` is whether `sys.platform.startswith('win')`. -/
def runHandler (isWindows : Bool) (gemini : Str → Str) :
    HandlerTag → Memoria → Str → Resultado
  | .set_user_name => handle_set_user_name
  | .get_user_name => handle_get_user_name
  | .remember_fact => handle_remember_fact
  | .recall_fact => handle_recall_fact gemini
  | .open_website => handle_open_website
  | .google_search => handle_google_search
  | .exit_cmd => handle_exit
  | .execute_app => handle_execute_app isWindows

/-- The dispatcher scan of `pensar_y_responder`: for each table entry in
order, for each keyword in order, return the entry's handler on the
first keyword contained in the command. -/
def findHandler (comando : Str) : Option HandlerTag :=
  command_dispatcher.findSome?
    (fun p => if p.2.any (fun kw => containsSub kw comando) then some p.1 else none)

/-- The distinguished keyword checked after the whole table. -/
def ejecutaKw : Str := str "ejecuta"

/-- `Nexus.pensar_y_responder`: empty command short-circuits; an unset
assistant name routes everything to `_handle_set_ia_name`; otherwise the
dispatcher table is scanned, then the special `"ejecuta"` keyword, and
finally the command is forwarded unchanged to Gemini. -/
def pensar_y_responder (isWindows : Bool) (gemini : Str → Str)
    (m : Memoria) (comando : Str) : Resultado :=
  if comando = [] then
    { memoria := m, speech := [], accion := .none, saved := false, spawned := none }
  else if m.nombre = [] then
    handle_set_ia_name m comando
  else
    match findHandler comando with
    | some tag => runHandler isWindows gemini tag m comando
    | none =>
      if containsSub ejecutaKw comando then handle_execute_app isWindows m comando
      else { memoria := m, speech := gemini comando, accion := .none, saved := false, spawned := none }

/-- One event arriving from the streaming provider: a chunk of reply
text, or the exception a failing provider raises mid-iteration. -/
inductive ProvEvent where
  | chunk (s : Str)
  | err
deriving DecidableEq

/-- The fallback literal returned by `pensar_con_gemini`'s `except`
branch. -/
def fallback_complete : Str :=
  str "Lo siento, parece que tengo problemas para contactar a Google Gemini en este momento."

/-- The fallback literal yielded by `pensar_con_gemini_stream`'s
`except` branch. -/
def fallback_stream : Str :=
  str "Lo siento, parece que tengo problemas para contactar a Google Gemini en este momento."

/-- `Nexus.pensar_con_gemini`'s try/except: the provider's reply text
when the call succeeds (`some`), the fixed fallback when it raises
(`none`). -/
def pensar_con_gemini_result (providerReply : Option Str) : Str :=
  match providerReply with
  | some t => t
  | none => fallback_complete

/-- `Nexus.pensar_con_gemini_stream`'s generator loop: yield the text of
each non-empty chunk in arrival order; the first raised exception yields
the fallback once and ends the stream (later events are unreachable). -/
def pensar_con_gemini_stream : List ProvEvent → List Str
  | [] => []
  | .chunk s :: rest =>
    if s ≠ [] then s :: pensar_con_gemini_stream rest else pensar_con_gemini_stream rest
  | .err :: _ => [fallback_stream]

/-- One row of the `memories` table (src/database.py): primary key
`session_id` plus the two serialized fields.  JSON round-trips these
value shapes exactly, so serialization is modelled as the identity and
the fields hold the deserialized values. -/
structure MemoryDB where
  session_id : Str
  memory_json : Memoria
  history_json : List Str
deriving DecidableEq

/-- The `memories` table: rows in insertion order, `session_id` unique
(primary key). -/
abbrev Store := List MemoryDB

/-- `db.query(MemoryDB).filter(MemoryDB.session_id == sid).first()`. -/
def queryFirst (db : Store) (sid : Str) : Option MemoryDB :=
  db.find? (fun r => r.session_id == sid)

/-- `Nexus._guardar_memoria` (database path): overwrite both serialized
fields of the existing row for this session id, or add a new row. -/
def guardar_memoria : Store → Str → Memoria → List Str → Store
  | [], sid, m, hist => [⟨sid, m, hist⟩]
  | r :: rest, sid, m, hist =>
    if r.session_id == sid then ⟨sid, m, hist⟩ :: rest
    else r :: guardar_memoria rest sid m hist

/-- `Nexus._cargar_memoria` (database path): the stored pair on a hit,
the blank memory and empty history on a miss. -/
def cargar_memoria (db : Store) (sid : Str) : Memoria × List Str :=
  match queryFirst db sid with
  | some r => (r.memory_json, r.history_json)
  | none => (blankMemoria, [])

/-- `NexusInstanceManager._instances`' key set, in insertion order
(`get_or_create_instance` only ever inserts; the claims below concern
key presence, so the `Nexus` values are not carried). -/
def get_or_create_instance (instances : List Str) (sid : Str) : List Str :=
  if sid ∈ instances then instances else instances ++ [sid]

/-- The registry's key listing after serving each session id of `sids`
once, in order, starting from an empty registry. -/
def insertAllSessions (sids : List Str) : List Str :=
  sids.foldl get_or_create_instance []

/-- One server-sent event of `/interact-stream`: the single reply dict
of a command-matched turn, one `speech_chunk`, or the final `done`. -/
inductive SseEvent where
  | reply (speech : Str) (accion : Accion)
  | speech_chunk (s : Str)
  | done
deriving DecidableEq

/-- The `speech_chunk` payload of an event, if it is one. -/
def chunkText : SseEvent → Option Str
  | .speech_chunk s => some s
  | _ => Option.none

/-- `interactuar_stream.generate_events`: append the command to the
history; match a handler by scanning the whole table (any keyword
contained), then let `"ejecuta"` override; a matched handler produces
one reply event (its speech appended to the history when non-empty),
otherwise Gemini's stream is forwarded chunk by chunk and the
concatenation is appended when non-empty; a final `done` event closes.
Returns (events, memory afterwards, history afterwards). -/
def generate_events (isWindows : Bool) (gemini : Str → Str) (events : List ProvEvent)
    (m : Memoria) (hist : List Str) (comando : Str) :
    List SseEvent × Memoria × List Str :=
  let hist1 := hist ++ [comando]
  let matched : Option HandlerTag :=
    if containsSub ejecutaKw comando then some .execute_app else findHandler comando
  match matched with
  | some tag =>
    let r := runHandler isWindows gemini tag m comando
    ([.reply r.speech r.accion, .done], r.memoria,
     hist1 ++ (if r.speech ≠ [] then [r.speech] else []))
  | none =>
    let frags := pensar_con_gemini_stream events
    let full := frags.flatten
    (frags.map .speech_chunk ++ [.done], m,
     hist1 ++ (if full ≠ [] then [full] else []))

/-- Modelled from the claim wording of C3 (refinement side): the first
table entry one of whose keyword phrases appears anywhere inside the
input, scanning the fixed table in definition order. -/
def findHandlerSpec (comando : Str) : Option HandlerTag :=
  (command_dispatcher.find? (fun p => p.2.any (fun kw => containsSub kw comando))).map Prod.fst

/-- Modelled from the claim wording of C4 (refinement side): split at
the first occurrence of the highest-priority connector (`" es "` before
`" son "`), trimming both sides. -/
def connectorSplit (dato : Str) : Option (Str × Str) :=
  match splitFirst esSep dato with
  | some (l, r) => some (strip l, strip r)
  | none =>
    match splitFirst sonSep dato with
    | some (l, r) => some (strip l, strip r)
    | none => none

/-- A concrete named memory used by witnesses and counterexamples. -/
def mNexus : Memoria := { nombre := str "Nexus", nombre_usuario := [], datos_aprendidos := [] }

/-- A concrete LLM oracle used by witnesses and counterexamples. -/
def g0 : Str → Str := fun _ => str "RESPUESTA-LLM"

/-- The Boolean containment test agrees with list infix. -/
theorem containsSub_iff_infix (n : Str) : ∀ h : Str, containsSub n h = true ↔ n <:+: h := by
  intro h
  induction h with
  | nil =>
    simp [containsSub, List.isEmpty_iff]
  | cons c cs ih =>
    simp only [containsSub, Bool.or_eq_true, List.isPrefixOf_iff_prefix, ih,
      List.infix_cons_iff]

/-- The containment test is exactly definedness of the single split. -/
theorem containsSub_eq_isSome_splitFirst (sep : Str) :
    ∀ s : Str, containsSub sep s = (splitFirst sep s).isSome := by
  intro s
  induction s with
  | nil =>
    by_cases h : sep.isEmpty <;> simp [containsSub, splitFirst, h]
  | cons c cs ih =>
    by_cases hp : sep.isPrefixOf (c :: cs) <;>
      simp [containsSub, splitFirst, hp, ih, Option.isSome_map]

/-- The source's early-return scan over the table equals the claim-side
"first entry that fires" selection. -/
theorem findHandler_eq_spec (comando : Str) : findHandler comando = findHandlerSpec comando := by
  unfold findHandler findHandlerSpec
  induction command_dispatcher with
  | nil => rfl
  | cons p t ih =>
    by_cases h : p.2.any (fun kw => containsSub kw comando) <;>
      simp [List.findSome?_cons, List.find?_cons, h, ih, -List.any_eq_true]

/-- Saving a session's record and querying that session id finds exactly
the row just written. -/
theorem queryFirst_guardar (db : Store) (sid : Str) (m : Memoria) (hist : List Str) :
    queryFirst (guardar_memoria db sid m hist) sid = some ⟨sid, m, hist⟩ := by
  induction db with
  | nil => simp [guardar_memoria, queryFirst, List.find?]
  | cons r rest ih =>
    by_cases h : r.session_id == sid
    · simp [guardar_memoria, queryFirst, List.find?, h]
    · simpa [guardar_memoria, queryFirst, List.find?, h] using ih

/-- Folding the registry insertion over a list of session ids collects
exactly the starting keys and the served ids. -/
theorem mem_foldl_get_or_create (sids : List Str) :
    ∀ (acc : List Str) (x : Str),
      x ∈ sids.foldl get_or_create_instance acc ↔ x ∈ acc ∨ x ∈ sids := by
  induction sids with
  | nil =>
    intro acc x
    simp
  | cons s t ih =>
    intro acc x
    simp only [List.foldl_cons, ih, List.mem_cons]
    unfold get_or_create_instance
    split_ifs with h
    · constructor
      · rintro (hx | hx)
        · exact Or.inl hx
        · exact Or.inr (Or.inr hx)
      · rintro (hx | hx | hx)
        · exact Or.inl hx
        · exact Or.inl (hx ▸ h)
        · exact Or.inr hx
    · simp only [List.mem_append, List.mem_singleton]
      tauto

set_option maxRecDepth 40000 in
/-- C1 counterexample: the Session Registry has no capacity and no
eviction.  After serving 101 distinct session ids (capacity 100 plus one
in the spec's example) with no repeated access, the least-recently-used
id `"0"` is still in the key listing, and all 101 ids remain. -/
theorem C1_counterexample :
    Nat.toDigits 10 0 ∈ insertAllSessions ((List.range 101).map (Nat.toDigits 10)) ∧
    (insertAllSessions ((List.range 101).map (Nat.toDigits 10))).length = 101 := by
  decide

/-- C1 (amended): the Session Registry is an unbounded map with no
eviction: `get_or_create_instance` keeps every existing key, and after
serving any list of session ids the key listing holds exactly the ids
served. -/
theorem C1_registry_unbounded :
    (∀ (insts : List Str) (sid x : Str), x ∈ insts → x ∈ get_or_create_instance insts sid) ∧
    (∀ (sids : List Str) (x : Str), x ∈ insertAllSessions sids ↔ x ∈ sids) := by
  constructor
  · intro insts sid x hx
    unfold get_or_create_instance
    split_ifs with h
    · exact hx
    · exact List.mem_append_left _ hx
  · intro sids x
    rw [insertAllSessions, mem_foldl_get_or_create]
    simp

/-- C1 witness: the amended theorem at concrete inputs. -/
theorem C1_registry_unbounded_witness :
    str "a" ∈ [str "a"] ∧ str "a" ∈ get_or_create_instance [str "a"] (str "b") ∧
    (str "a" ∈ insertAllSessions [str "a", str "b"] ↔ str "a" ∈ [str "a", str "b"]) :=
  ⟨by decide, C1_registry_unbounded.1 [str "a"] (str "b") (str "a") (by decide),
   C1_registry_unbounded.2 [str "a", str "b"] (str "a")⟩

/-- C2 counterexample: with the assistant name unset, the empty input
does not produce the name-setting reply (the entry point returns empty
speech, saves nothing and sets no name), so "whatever the input text"
fails at the empty string. -/
theorem C2_counterexample :
    blankMemoria.nombre = [] ∧
    pensar_y_responder false g0 blankMemoria [] ≠ handle_set_ia_name blankMemoria [] := by
  decide

/-- C2 (amended): for every session whose memory has an empty assistant
name, every call to `pensar_y_responder` with a NON-EMPTY input returns
the name-setting confirmation reply with action `none`, sets the
assistant name to the capitalized trimmed input, persists, and bypasses
all other dispatch. -/
theorem C2_unnamed_sets_name (isWindows : Bool) (gemini : Str → Str) (m : Memoria)
    (comando : Str) (hname : m.nombre = []) (hne : comando ≠ []) :
    pensar_y_responder isWindows gemini m comando =
      { memoria := { m with nombre := capitalize (strip comando) },
        speech := str "¡Entendido! A partir de ahora mi nombre es " ++ capitalize (strip comando)
          ++ str ". ¿En qué puedo ayudarte?",
        accion := .none, saved := true, spawned := none } := by
  unfold pensar_y_responder
  rw [if_neg hne, hname, if_pos rfl]
  rfl

/-- C2 witness: the amended theorem at a keyword-containing input
(`"abre google"` would otherwise dispatch to the open-website handler). -/
theorem C2_unnamed_sets_name_witness :
    blankMemoria.nombre = [] ∧ str "abre google" ≠ [] ∧
    pensar_y_responder false g0 blankMemoria (str "abre google") =
      { memoria := { blankMemoria with nombre := capitalize (strip (str "abre google")) },
        speech := str "¡Entendido! A partir de ahora mi nombre es "
          ++ capitalize (strip (str "abre google")) ++ str ". ¿En qué puedo ayudarte?",
        accion := .none, saved := true, spawned := none } :=
  ⟨rfl, by decide, C2_unnamed_sets_name false g0 blankMemoria (str "abre google") rfl (by decide)⟩

/-- C3 counterexample: once named, the empty input matches no keyword
yet is NOT forwarded to the LLM bridge — the entry point returns empty
speech before dispatch, so "when no keyword matches at all the input is
forwarded unchanged to the LLM bridge" fails at the empty string. -/
theorem C3_counterexample :
    mNexus.nombre ≠ [] ∧ findHandler [] = Option.none ∧ containsSub ejecutaKw [] = false ∧
    (pensar_y_responder false g0 mNexus []).speech ≠ g0 [] := by
  decide

/-- C3 (amended): dispatch keywords fire by substring containment (the
Boolean test means exactly "the phrase appears anywhere inside the
input"), and for every NON-EMPTY input in a named session the entry
point equals the claim-side dispatch: the first table entry (definition
order) with a contained keyword wins, the `"ejecuta"` keyword is checked
only after the whole table, and with no match the input is forwarded
unchanged to the LLM bridge. -/
theorem C3_dispatch_refinement :
    (∀ kw comando : Str, containsSub kw comando = true ↔ kw <:+: comando) ∧
    (∀ (isWindows : Bool) (gemini : Str → Str) (m : Memoria) (comando : Str),
      comando ≠ [] → m.nombre ≠ [] →
      pensar_y_responder isWindows gemini m comando =
        match findHandlerSpec comando with
        | some tag => runHandler isWindows gemini tag m comando
        | none =>
          if containsSub ejecutaKw comando then handle_execute_app isWindows m comando
          else { memoria := m, speech := gemini comando, accion := .none, saved := false,
                 spawned := none }) := by
  constructor
  · exact fun kw c => containsSub_iff_infix kw c
  · intro isWindows gemini m comando hne hnamed
    unfold pensar_y_responder
    rw [if_neg hne, if_neg hnamed, findHandler_eq_spec]

/-- C3 witness: the amended theorem at a mid-word match (`"reinicia el
sistema"` contains the open-website keyword `"inicia"` mid-word). -/
theorem C3_dispatch_refinement_witness :
    (str "reinicia el sistema" ≠ [] ∧ mNexus.nombre ≠ []) ∧
    pensar_y_responder false g0 mNexus (str "reinicia el sistema") =
      match findHandlerSpec (str "reinicia el sistema") with
      | some tag => runHandler false g0 tag mNexus (str "reinicia el sistema")
      | none =>
        if containsSub ejecutaKw (str "reinicia el sistema") then
          handle_execute_app false mNexus (str "reinicia el sistema")
        else { memoria := mNexus, speech := g0 (str "reinicia el sistema"), accion := .none,
               saved := false, spawned := none } :=
  ⟨⟨by decide, by decide⟩,
   C3_dispatch_refinement.2 false g0 mNexus (str "reinicia el sistema") (by decide) (by decide)⟩

/-- C10: for every session state, the empty input returns empty speech
with action `none`, mutates nothing, spawns nothing and triggers no
save — even when the assistant name is unset. -/
theorem C10_empty_input (isWindows : Bool) (gemini : Str → Str) (m : Memoria) :
    pensar_y_responder isWindows gemini m [] =
      { memoria := m, speech := [], accion := .none, saved := false, spawned := none } := by
  unfold pensar_y_responder
  rw [if_pos rfl]

/-- When the separator is not contained, the single split fails. -/
theorem splitFirst_eq_none_of_not_contains {sep s : Str} (h : containsSub sep s = false) :
    splitFirst sep s = none := by
  have hs := containsSub_eq_isSome_splitFirst sep s
  rw [h] at hs
  cases ho : splitFirst sep s with
  | none => rfl
  | some p => rw [ho] at hs; simp at hs

/-- C4: the remember-fact handler strips the trigger phrase and splits
the remainder at the first occurrence of the highest-priority connector
(`" es "` scanned before `" son "`), storing the trimmed left side as
key and the trimmed right side as value (claim-side `connectorSplit`);
in particular `recuerda que el cielo es azul` stores `el cielo ↦ azul`,
and the subsequent recall query `qué sabes sobre el cielo` answers with
a reply containing `azul` that is the same for every LLM oracle (the
bridge is not invoked). -/
theorem C4_remember_split_and_recall :
    (∀ (m : Memoria) (comando : Str),
      handle_remember_fact m comando =
        match connectorSplit (strip (replaceFirst (str "recuerda que") [] comando)) with
        | some (k, v) =>
          { memoria := { m with datos_aprendidos := setFact m.datos_aprendidos k v },
            speech := str "Entendido. He guardado que '" ++ k ++ str "' es '" ++ v ++ str "'.",
            accion := .none, saved := true, spawned := none }
        | none =>
          { memoria := m,
            speech := str "Para que recuerde algo, por favor usa el formato: 'recuerda que [dato] es [valor]'.",
            accion := .none, saved := false, spawned := none }) ∧
    (∀ (isWindows : Bool) (gemini : Str → Str),
      (pensar_y_responder isWindows gemini mNexus
          (str "recuerda que el cielo es azul")).memoria.datos_aprendidos
        = [(str "el cielo", str "azul")] ∧
      (pensar_y_responder isWindows gemini
          (pensar_y_responder isWindows gemini mNexus
            (str "recuerda que el cielo es azul")).memoria
          (str "qué sabes sobre el cielo")).speech
        = str "Recuerdo que el cielo es azul." ∧
      containsSub (str "azul")
        ((pensar_y_responder isWindows gemini
          (pensar_y_responder isWindows gemini mNexus
            (str "recuerda que el cielo es azul")).memoria
          (str "qué sabes sobre el cielo")).speech) = true) := by
  constructor
  · intro m comando
    simp only [handle_remember_fact, connectorSplit]
    by_cases h : containsSub esSep (strip (replaceFirst (str "recuerda que") [] comando)) = true
    · simp only [h, if_true]
      cases ho : splitFirst esSep (strip (replaceFirst (str "recuerda que") [] comando)) with
      | none =>
        exfalso
        have hs := containsSub_eq_isSome_splitFirst esSep
          (strip (replaceFirst (str "recuerda que") [] comando))
        rw [h, ho] at hs
        simp at hs
      | some p => rfl
    · rw [Bool.not_eq_true] at h
      simp only [h, Bool.false_eq_true, if_false]
      rw [splitFirst_eq_none_of_not_contains h]
      cases ho : splitFirst sonSep (strip (replaceFirst (str "recuerda que") [] comando)) with
      | none => rfl
      | some p => rfl
  · intro isWindows gemini
    exact ⟨rfl, rfl, rfl⟩

/-- C5: when neither connector occurs in the stripped remainder, the
remember-fact handler returns the corrective format hint and leaves the
whole session state unchanged — same memory (facts and both names), no
save triggered, nothing spawned. -/
theorem C5_no_connector_is_atomic (m : Memoria) (comando : Str)
    (hes : containsSub esSep (strip (replaceFirst (str "recuerda que") [] comando)) = false)
    (hson : containsSub sonSep (strip (replaceFirst (str "recuerda que") [] comando)) = false) :
    handle_remember_fact m comando =
      { memoria := m,
        speech := str "Para que recuerde algo, por favor usa el formato: 'recuerda que [dato] es [valor]'.",
        accion := .none, saved := false, spawned := none } := by
  simp only [handle_remember_fact, hes, Bool.false_eq_true, if_false]
  rw [splitFirst_eq_none_of_not_contains hson]

/-- C5 witness: the theorem at the spec's example `recuerda que nada`. -/
theorem C5_no_connector_is_atomic_witness :
    containsSub esSep (strip (replaceFirst (str "recuerda que") [] (str "recuerda que nada"))) = false ∧
    containsSub sonSep (strip (replaceFirst (str "recuerda que") [] (str "recuerda que nada"))) = false ∧
    handle_remember_fact mNexus (str "recuerda que nada") =
      { memoria := mNexus,
        speech := str "Para que recuerde algo, por favor usa el formato: 'recuerda que [dato] es [valor]'.",
        accion := .none, saved := false, spawned := none } :=
  ⟨by decide, by decide, C5_no_connector_is_atomic mNexus (str "recuerda que nada") (by decide) (by decide)⟩

/-- C6: saving a Memory+Transcript pair for a session id and loading
that id back yields the saved pair, and a second save for the same id
overwrites both fields entirely (the first saved pair is gone, with no
partial or merge update). -/
theorem C6_save_load_roundtrip :
    (∀ (db : Store) (sid : Str) (m : Memoria) (hist : List Str),
      cargar_memoria (guardar_memoria db sid m hist) sid = (m, hist)) ∧
    (∀ (db : Store) (sid : Str) (m₁ m₂ : Memoria) (h₁ h₂ : List Str),
      cargar_memoria (guardar_memoria (guardar_memoria db sid m₁ h₁) sid m₂ h₂) sid = (m₂, h₂)) := by
  have base : ∀ (db : Store) (sid : Str) (m : Memoria) (hist : List Str),
      cargar_memoria (guardar_memoria db sid m hist) sid = (m, hist) := by
    intro db sid m hist
    unfold cargar_memoria
    rw [queryFirst_guardar]
  exact ⟨base, fun db sid m₁ m₂ h₁ h₂ => base _ sid m₂ h₂⟩

/-- C7: on provider failure the blocking completion returns the fixed
apologetic fallback (the same literal as the streaming one), and a
failure mid-stream yields exactly the fragments already produced, then
that fallback as one final fragment, and stops (events after the
exception are never read, and nothing already yielded is retracted). -/
theorem C7_provider_failure_fallback :
    pensar_con_gemini_result Option.none = fallback_complete ∧
    fallback_complete = fallback_stream ∧
    (∀ (good rest : List ProvEvent), (∀ e ∈ good, e ≠ ProvEvent.err) →
      pensar_con_gemini_stream (good ++ ProvEvent.err :: rest) =
        pensar_con_gemini_stream good ++ [fallback_stream]) := by
  refine ⟨rfl, rfl, ?_⟩
  intro good rest hgood
  induction good with
  | nil => rfl
  | cons e t ih =>
    cases e with
    | chunk s =>
      have ht := ih (fun e he => hgood e (List.mem_cons_of_mem _ he))
      simp only [List.cons_append, pensar_con_gemini_stream, List.append_eq]
      split_ifs with hs
      · rw [ht, List.cons_append]
      · rw [ht]
    | err => exact absurd rfl (hgood .err (List.mem_cons_self _ _))

/-- C7 witness: one good chunk, then a failure, then an unreachable
chunk. -/
theorem C7_provider_failure_fallback_witness :
    (∀ e ∈ [ProvEvent.chunk (str "Hola")], e ≠ ProvEvent.err) ∧
    pensar_con_gemini_stream
        ([ProvEvent.chunk (str "Hola")] ++ ProvEvent.err :: [ProvEvent.chunk (str "perdido")]) =
      pensar_con_gemini_stream [ProvEvent.chunk (str "Hola")] ++ [fallback_stream] :=
  ⟨by decide, C7_provider_failure_fallback.2.2 [ProvEvent.chunk (str "Hola")]
    [ProvEvent.chunk (str "perdido")] (by decide)⟩

/-- C8: on a non-Windows host the execute-application handler refuses
for every input — reply is the refusal text, action `none`, nothing
spawned, no state change, no save; the platform test is decided before
any app-name lookup, so the map never matters. -/
theorem C8_non_windows_refusal (m : Memoria) (comando : Str) :
    handle_execute_app false m comando =
      { memoria := m,
        speech := str "Lo siento, la función de ejecutar aplicaciones como '"
          ++ lowerStr (strip (replaceAll (str "ejecuta") [] comando))
          ++ str "' solo está disponible cuando opero en un sistema Windows.",
        accion := .none, saved := false, spawned := none } := by
  rfl

/-- Extracting the chunk payloads from a streamed turn's event list
recovers exactly the forwarded fragments. -/
theorem filterMap_chunkText_map (l : List Str) :
    ((l.map SseEvent.speech_chunk) ++ [SseEvent.done]).filterMap chunkText = l := by
  induction l with
  | nil => rfl
  | cons s t ih => simpa [List.filterMap_cons, chunkText] using ih

/-- C9: for a streamed non-command turn (no table keyword matches, no
`"ejecuta"`) whose fragment concatenation is non-empty, the
concatenation of the `speech_chunk` fragments in delivery order equals
exactly the single assistant transcript entry appended for the turn:
the history afterwards is the old history plus the user command plus
that one concatenation. -/
theorem C9_stream_concat_is_transcript_entry (isWindows : Bool) (gemini : Str → Str)
    (events : List ProvEvent) (m : Memoria) (hist : List Str) (comando : Str)
    (htab : findHandler comando = Option.none)
    (hexe : containsSub ejecutaKw comando = false)
    (hne : (pensar_con_gemini_stream events).flatten ≠ []) :
    ((generate_events isWindows gemini events m hist comando).1.filterMap chunkText).flatten
        = (pensar_con_gemini_stream events).flatten ∧
    (generate_events isWindows gemini events m hist comando).2.2
        = hist ++ [comando,
            ((generate_events isWindows gemini events m hist comando).1.filterMap chunkText).flatten] := by
  have hmatch : (if containsSub ejecutaKw comando then some HandlerTag.execute_app
      else findHandler comando) = (Option.none : Option HandlerTag) := by
    rw [hexe, htab]
    rfl
  simp only [generate_events, hmatch]
  constructor
  · rw [filterMap_chunkText_map]
  · rw [filterMap_chunkText_map, if_pos hne]
    simp

/-- C9 witness: a two-chunk stream for the non-command input `hola`. -/
theorem C9_stream_concat_is_transcript_entry_witness :
    findHandler (str "hola") = Option.none ∧
    containsSub ejecutaKw (str "hola") = false ∧
    (pensar_con_gemini_stream [ProvEvent.chunk (str "Ho"), ProvEvent.chunk (str "la!")]).flatten ≠ [] ∧
    (((generate_events false g0 [ProvEvent.chunk (str "Ho"), ProvEvent.chunk (str "la!")]
        mNexus [] (str "hola")).1.filterMap chunkText).flatten
      = (pensar_con_gemini_stream [ProvEvent.chunk (str "Ho"), ProvEvent.chunk (str "la!")]).flatten ∧
    (generate_events false g0 [ProvEvent.chunk (str "Ho"), ProvEvent.chunk (str "la!")]
        mNexus [] (str "hola")).2.2
      = [] ++ [str "hola",
          ((generate_events false g0 [ProvEvent.chunk (str "Ho"), ProvEvent.chunk (str "la!")]
            mNexus [] (str "hola")).1.filterMap chunkText).flatten]) :=
  ⟨by decide, by decide, by decide,
   C9_stream_concat_is_transcript_entry false g0
     [ProvEvent.chunk (str "Ho"), ProvEvent.chunk (str "la!")] mNexus [] (str "hola")
     (by decide) (by decide) (by decide)⟩
